import Mathlib

/-!
Verification of the pedal navigation backend.

The development shallowly embeds the FastAPI orchestration layer
(`src/backend/main.py`) and the heatmap data loader (`src/heatmap.py`).
Python floats are embedded as rationals (`ℚ`): every comparison the code
performs is order-theoretic, so the embedding is faithful on the values the
claims quantify over.  Python exceptions are embedded as `Except`/`Option`
results; a Lean function returning a plain value models code that cannot
raise.

The route-calculation engine (`route_calculator.py`, `graph_builder.py`,
`crime_analyzer.py`, `osm_analyzer.py`, `weight_calibrator.py`) is imported
by `main.py` but is not part of the available sources; where a claim depends
on it, the component is modelled from the specification and marked
`Modelled from the spec:` in its doc comment.
-/

namespace Pedal

/-! ## Request validation (src/backend/main.py, RouteRequestModel /
RouteCompareRequestModel)

Each pydantic `@validator` either returns the value or raises `ValueError`;
construction of the model succeeds exactly when every validator attached to
the model passes.  The validators are embedded as Booleans. -/

/-- `validate_latitude` (main.py lines 71-75 and 107-111):
passes iff `-90 <= v <= 90`. -/
def validate_latitude (v : ℚ) : Bool :=
  decide (-90 ≤ v) && decide (v ≤ 90)

/-- `validate_longitude` (main.py lines 77-81 and 113-117):
passes iff `-180 <= v <= 180`. -/
def validate_longitude (v : ℚ) : Bool :=
  decide (-180 ≤ v) && decide (v ≤ 180)

/-- `valid_types` list from `validate_route_type` (main.py line 85). -/
def valid_types : List String := ["fastest", "safe", "bike", "safe_bike"]

/-- `validate_route_type` (main.py lines 83-88): passes iff the value is in
`valid_types`. -/
def validate_route_type (v : String) : Bool :=
  decide (v ∈ valid_types)

/-- `valid_algorithms` list from `validate_algorithm` (main.py line 92). -/
def valid_algorithms : List String := ["dijkstra", "astar"]

/-- `validate_algorithm` (main.py lines 90-95): passes iff the value is in
`valid_algorithms`. -/
def validate_algorithm (v : String) : Bool :=
  decide (v ∈ valid_algorithms)

/-- `RouteRequestModel` (main.py lines 62-95).  `algorithm` carries the
pydantic default `'dijkstra'` when omitted; construction applies
`mkRouteRequestModel` below. -/
structure RouteRequestModel where
  start_lat : ℚ
  start_lon : ℚ
  end_lat : ℚ
  end_lon : ℚ
  route_type : String
  algorithm : String

/-- Field defaulting performed by pydantic for `RouteRequestModel`:
an omitted `algorithm` field (embedded as `none`) defaults to
`'dijkstra'` (main.py line 69). -/
def mkRouteRequestModel (start_lat start_lon end_lat end_lon : ℚ)
    (route_type : String) (algorithm : Option String) : RouteRequestModel :=
  { start_lat := start_lat, start_lon := start_lon,
    end_lat := end_lat, end_lon := end_lon,
    route_type := route_type,
    algorithm := algorithm.getD "dijkstra" }

/-- Validation of `RouteRequestModel`: pydantic runs the latitude validator
on `start_lat`/`end_lat`, the longitude validator on `start_lon`/`end_lon`,
and the route-type and algorithm validators (main.py lines 71-95).
Construction succeeds iff this returns `true`. -/
def RouteRequestModel.validOK (r : RouteRequestModel) : Bool :=
  validate_latitude r.start_lat && validate_latitude r.end_lat &&
  validate_longitude r.start_lon && validate_longitude r.end_lon &&
  validate_route_type r.route_type && validate_algorithm r.algorithm

/-- `RouteCompareRequestModel` (main.py lines 98-117).  `route_types` is
`Optional[List[str]] = None`; `algorithm` defaults to `'dijkstra'`. -/
structure RouteCompareRequestModel where
  start_lat : ℚ
  start_lon : ℚ
  end_lat : ℚ
  end_lon : ℚ
  route_types : Option (List String)
  algorithm : String

/-- Field defaulting performed by pydantic for `RouteCompareRequestModel`
(main.py lines 104-105): omitted `route_types` is `None`, omitted
`algorithm` is `'dijkstra'`. -/
def mkRouteCompareRequestModel (start_lat start_lon end_lat end_lon : ℚ)
    (route_types : Option (List String)) (algorithm : Option String) :
    RouteCompareRequestModel :=
  { start_lat := start_lat, start_lon := start_lon,
    end_lat := end_lat, end_lon := end_lon,
    route_types := route_types,
    algorithm := algorithm.getD "dijkstra" }

/-- Validation of `RouteCompareRequestModel`: the model declares validators
only for the latitude and longitude fields (main.py lines 107-117); its
`route_types` and `algorithm` fields have no validators. -/
def RouteCompareRequestModel.validOK (r : RouteCompareRequestModel) : Bool :=
  validate_latitude r.start_lat && validate_latitude r.end_lat &&
  validate_longitude r.start_lon && validate_longitude r.end_lon

/-! ## Route results and application state -/

/-- Payload of a successfully calculated route, as produced by the route
calculator (spec §3, `RouteResult` success fields; `route_calculator.py` is
not among the available sources, so the payload is kept abstract as the
fields `main.py` copies into `RouteResponseModel`, lines 385-396). -/
structure RouteData where
  route : List (List ℚ)
  distance_meters : ℚ
  estimated_time_minutes : ℚ
  safety_score : ℚ
  bike_coverage_percent : ℚ
  calculation_time_ms : ℚ
  node_count : Nat

/-- `RouteResponseModel` (main.py lines 120-131), also standing for the
internal `RouteResult`: either a full success payload or a result carrying
an error message. -/
structure RouteResponseModel where
  route : List (List ℚ)
  distance_meters : ℚ
  estimated_time_minutes : ℚ
  safety_score : ℚ
  bike_coverage_percent : ℚ
  route_type : String
  algorithm_used : String
  calculation_time_ms : ℚ
  node_count : Nat
  error_message : Option String
deriving DecidableEq

/-- `crime_analysis` sub-dictionary of the calibration statistics consumed
by `/stats` (main.py lines 345-352). -/
structure CrimeAnalysisStats where
  total_crime_count : Nat
  indy_crime_count : Nat
  wl_crime_count : Nat
  crime_type_weights : List (String × ℚ)
deriving DecidableEq

/-- `calibrated_weights.calibration_stats` as read by `/stats`
(main.py line 346): its `crime_analysis` entry may be absent. -/
structure CalibrationStats where
  crime_analysis : Option CrimeAnalysisStats
deriving DecidableEq

/-- Abstract statistics payload returned by the route calculator's
`get_route_statistics` (spec §4.3: graph sizes, variant validity,
calibration provenance).  Its content is irrelevant to the claims; only its
identity matters. -/
structure RouteStatistics where
  graph_sizes : List (String × Nat)
  variant_validity : List (String × Bool)
deriving DecidableEq

/-- The global `app_state` dictionary (main.py lines 49-58).  Component
objects are embedded as presence flags plus the data `main.py` actually
reads from them; `calibrated_weights` keeps the calibration statistics read
by `/stats`. -/
structure AppState where
  initialized : Bool
  crime_analyzer : Bool
  osm_analyzer : Bool
  graph_builder : Bool
  route_calculator : Bool
  calibrated_weights : Option CalibrationStats
  initialization_time : ℚ
  startup_errors : List String
deriving DecidableEq

/-- The `app_state` value at module load (main.py lines 49-58). -/
def initialAppState : AppState :=
  { initialized := false, crime_analyzer := false, osm_analyzer := false,
    graph_builder := false, route_calculator := false,
    calibrated_weights := none, initialization_time := 0,
    startup_errors := [] }

/-! ## System initialization (src/backend/main.py, initialize_system,
lines 148-236)

The bodies of the five component constructors live outside the available
sources, so each step's outcome is a parameter: an `InitEnv` records, for
one hypothetical startup, whether each data file exists and whether each
component construction succeeds or raises (with which message).  The
control flow around those outcomes — the single `try`, the ordering of the
steps, and the `except` clause — is embedded from `main.py` itself. -/

structure InitEnv where
  /-- `indy_csv_path.exists()` (line 161). -/
  indyExists : Bool
  /-- Rendered path in the `FileNotFoundError` message (line 162). -/
  indyPath : String
  /-- `wl_json_path.exists()` (line 164). -/
  wlExists : Bool
  /-- Rendered path in the `FileNotFoundError` message (line 165). -/
  wlPath : String
  /-- Outcome of `crime_analyzer.analyze_crime_data` (line 172). -/
  crime : Except String Unit
  /-- Outcome of `osm_analyzer.analyze_osm_networks` (line 179). -/
  osm : Except String Unit
  /-- Outcome of `calibrator.master_calibration` (line 186). -/
  calib : Except String CalibrationStats
  /-- Outcome of graph building: `export_network_for_routing` returning a
  usable graph and `create_weighted_graphs` succeeding (lines 195-212).
  `false` also covers `combined_graph is None or number_of_nodes() == 0`. -/
  graphs : Except String Unit
  /-- Whether the exported graph is usable (line 196). -/
  exportOk : Bool
  /-- `route_calculator.initialize(...)` return value (line 217). -/
  routeCalcOk : Bool
  /-- `time.time() - startup_start` measured on success (line 225). -/
  elapsed : ℚ

/-- The body of the `try` block of `initialize_system` (lines 152-227):
runs the steps in source order, threading the partial `app_state`
assignments; an error result carries the exception message together with
the `app_state` as mutated so far. -/
def initTrySteps (env : InitEnv) (st : AppState) :
    Except (String × AppState) AppState :=
  if !env.indyExists then
    .error ("Indianapolis crime data not found: " ++ env.indyPath, st)
  else if !env.wlExists then
    .error ("West Lafayette crime data not found: " ++ env.wlPath, st)
  else
    match env.crime with
    | .error e => .error (e, st)
    | .ok _ =>
      let st := { st with crime_analyzer := true }
      match env.osm with
      | .error e => .error (e, st)
      | .ok _ =>
        let st := { st with osm_analyzer := true }
        match env.calib with
        | .error e => .error (e, st)
        | .ok cw =>
          let st := { st with calibrated_weights := some cw }
          if !env.exportOk then
            .error ("No valid road network available from OSM analysis", st)
          else
            match env.graphs with
            | .error e => .error (e, st)
            | .ok _ =>
              let st := { st with graph_builder := true }
              if !env.routeCalcOk then
                .error ("Failed to initialize route calculator", st)
              else
                .ok { st with route_calculator := true }

/-- `initialize_system` (main.py lines 148-236): on any exception from the
`try` block, the `except` clause appends
`"System initialization failed: " + str(e)` to `startup_errors`, sets
`initialized` to `False`, and deliberately does not re-raise (lines
229-236); on success it sets `initialized` and the elapsed time (lines
224-225).  Totality of this function embeds "no exception escapes". -/
def initialize_system (env : InitEnv) (st : AppState) : AppState :=
  match initTrySteps env st with
  | .ok st' =>
      { st' with initialized := true, initialization_time := env.elapsed }
  | .error (e, st') =>
      { st' with
        startup_errors :=
          st'.startup_errors ++ ["System initialization failed: " ++ e],
        initialized := false }

/-! ## Health check (src/backend/main.py, health_check, lines 269-295) -/

/-- `HealthResponseModel` (main.py lines 134-140).  `system_info` is
embedded by the two entries the claims can observe: the initialization
time and the optional `stats_error` added when `get_route_statistics`
raises (line 285). -/
structure HealthResponseModel where
  status : String
  initialized : Bool
  initialization_time_seconds : ℚ
  stats_error : Option String
  graph_stats : Option RouteStatistics
  errors : List String
deriving DecidableEq

/-- `health_check` (main.py lines 269-295).  `getStats` is the outcome of
`route_calculator.get_route_statistics()`, whose implementation is outside
the available sources; an exception from it is caught and recorded in
`system_info['stats_error']` (lines 282-285).  Totality embeds "the health
probe never fails". -/
def health_check (st : AppState) (getStats : Except String RouteStatistics) :
    HealthResponseModel :=
  let gs : Option RouteStatistics × Option String :=
    if st.initialized && st.route_calculator then
      match getStats with
      | .ok s => (some s, none)
      | .error e => (none, some e)
    else (none, none)
  let status :=
    if st.initialized && st.startup_errors.isEmpty then "healthy"
    else "unhealthy"
  { status := status, initialized := st.initialized,
    initialization_time_seconds := st.initialization_time,
    stats_error := gs.2, graph_stats := gs.1,
    errors := st.startup_errors }

/-! ## Statistics endpoint (src/backend/main.py, get_system_stats,
lines 324-357) -/

/-- `HTTPException` as raised by the handlers. -/
structure HTTPError where
  status_code : Nat
  detail : String
deriving DecidableEq

/-- Response of `/stats`: the calculator statistics updated with the
system entries (main.py lines 338-342) and the optional `crime_analysis`
block (lines 345-352). -/
structure StatsResponse where
  base : RouteStatistics
  initialization_time_seconds : ℚ
  initialized : Bool
  startup_errors : List String
  crime_analysis : Option CrimeAnalysisStats
deriving DecidableEq

/-- The `crime_analysis` entry `/stats` derives from
`calibrated_weights.calibration_stats` (main.py lines 345-352):
`calibration_stats.get('crime_analysis', {})` with per-key `.get(..., 0)`
defaults. -/
def crimeAnalysisOf (cw : CalibrationStats) : CrimeAnalysisStats :=
  match cw.crime_analysis with
  | some ca => ca
  | none =>
      { total_crime_count := 0, indy_crime_count := 0, wl_crime_count := 0,
        crime_type_weights := [] }

/-- `get_system_stats` (main.py lines 324-357), embedded in state-passing
style: the second component is the application state after the handler
runs.  `get_route_statistics` is modelled from the spec: read-only
introspection (spec §4.3, §6), hence a pure function of the state; the
handler itself only builds a fresh response dictionary (`stats.update`
mutates the local dict, line 338) and never writes `app_state`. -/
def get_system_stats (getStats : AppState → Except String RouteStatistics)
    (st : AppState) : Except HTTPError StatsResponse × AppState :=
  if !st.initialized then
    (.error { status_code := 503,
              detail := "System not initialized. Check /health for details." },
     st)
  else
    match getStats st with
    | .error e =>
        (.error { status_code := 500,
                  detail := "Error retrieving statistics: " ++ e }, st)
    | .ok stats =>
        (.ok { base := stats,
               initialization_time_seconds := st.initialization_time,
               initialized := st.initialized,
               startup_errors := st.startup_errors,
               crime_analysis := st.calibrated_weights.map crimeAnalysisOf },
         st)

/-! ## Single-route endpoint (src/backend/main.py, calculate_route,
lines 360-401) -/

/-- Internal `RouteRequest` handed to the route calculator
(main.py lines 372-379). -/
structure RouteRequest where
  start_lat : ℚ
  start_lon : ℚ
  end_lat : ℚ
  end_lon : ℚ
  route_type : String
  algorithm : String

/-- A route calculator run, as `main.py` observes it: for one request it
either returns a `RouteResult` (whose fields lines 385-396 copy into the
response) or raises with a message.  The calculator's implementation is
outside the available sources, so it enters as a function argument. -/
abbrev RouteCalc : Type := RouteRequest → Except String RouteResponseModel

/-- `calculate_route` (main.py lines 360-401): a 503 before initialization,
otherwise the calculator's result converted to the response model, with any
exception converted to a 500. -/
def calculate_route (calcFn : RouteCalc) (st : AppState)
    (request : RouteRequestModel) : Except HTTPError RouteResponseModel :=
  if !st.initialized then
    .error { status_code := 503,
             detail := "System not initialized. Check /health for details." }
  else
    let internal_request : RouteRequest :=
      { start_lat := request.start_lat, start_lon := request.start_lon,
        end_lat := request.end_lat, end_lon := request.end_lon,
        route_type := request.route_type, algorithm := request.algorithm }
    match calcFn internal_request with
    | .ok result => .ok result
    | .error e =>
        .error { status_code := 500,
                 detail := "Route calculation failed: " ++ e }

/-! ## Comparison endpoint (src/backend/main.py, compare_routes,
lines 404-449) -/

/-- Python-dict insertion into an association list: assigning to an
existing key overwrites its value in place, a new key is appended.  This is
the semantics of both `results[route_type] = ...` inside the calculator and
`response[route_type] = ...` in the handler (main.py lines 431-444). -/
def dictInsert {α : Type} (d : List (String × α)) (k : String) (v : α) :
    List (String × α) :=
  match d with
  | [] => [(k, v)]
  | (k', v') :: rest =>
      if k' = k then (k, v) :: rest else (k', v') :: dictInsert rest k v

/-- The entry `compare_routes` produces for one route type: a success
payload becomes a full result, a failure becomes a `RouteResult` carrying
only the error message (spec §4.3, §7). -/
def compareEntry (algorithm rt : String) (outcome : Except String RouteData) :
    RouteResponseModel :=
  match outcome with
  | .ok d =>
      { route := d.route, distance_meters := d.distance_meters,
        estimated_time_minutes := d.estimated_time_minutes,
        safety_score := d.safety_score,
        bike_coverage_percent := d.bike_coverage_percent,
        route_type := rt, algorithm_used := algorithm,
        calculation_time_ms := d.calculation_time_ms,
        node_count := d.node_count, error_message := none }
  | .error m =>
      { route := [], distance_meters := 0, estimated_time_minutes := 0,
        safety_score := 0, bike_coverage_percent := 0,
        route_type := rt, algorithm_used := algorithm,
        calculation_time_ms := 0, node_count := 0,
        error_message := some m }

/-- Modelled from the spec: `RouteCalculator.compare_routes`
(`route_calculator.py` is not among the available sources).  Spec §4.3:
"runs step 1 once … and step 2–5 once per requested route type; a failure
on one route type must not abort the others — each entry is independently a
success or a `RouteResult` carrying only an error message, never a global
exception".  `calcOne` gives, per route type, the outcome of the
snap-and-search steps for this request (a snapping failure makes every
`calcOne` outcome an error); the results dictionary is keyed by route type.
Totality embeds "never a global exception". -/
def RouteCalculator.compare_routes (calcOne : String → Except String RouteData)
    (algorithm : String) (route_types : List String) :
    List (String × RouteResponseModel) :=
  route_types.foldl
    (fun d rt => dictInsert d rt (compareEntry algorithm rt (calcOne rt))) []

/-- The default route-type list substituted for an omitted `route_types`
(main.py lines 417-418). -/
def defaultRouteTypes : List String := ["fastest", "safe", "bike", "safe_bike"]

/-- `compare_routes` endpoint handler (main.py lines 404-449): a 503 before
initialization; otherwise it substitutes the default route types for
`None`, calls the calculator, and rebuilds the results dictionary
field-by-field into response models (lines 430-444) — an identity on this
embedding, where the calculator already produces response-model entries. -/
def compare_routes (calcOne : String → Except String RouteData)
    (st : AppState) (request : RouteCompareRequestModel) :
    Except HTTPError (List (String × RouteResponseModel)) :=
  if !st.initialized then
    .error { status_code := 503,
             detail := "System not initialized. Check /health for details." }
  else
    let route_types := request.route_types.getD defaultRouteTypes
    .ok (RouteCalculator.compare_routes calcOne request.algorithm route_types)

/-! ## Heatmap JSON loader (src/heatmap.py, load_json_crime_data,
lines 10-99)

JSON documents are embedded as `JVal`.  A call's input is a `FileInput`:
the file may be missing (`FileNotFoundError`), unreadable as JSON
(`json.JSONDecodeError`), or parsed into a value.  Python exceptions inside
the `try` block are embedded as `Except Unit` and are all converted to
`none` by the handlers at lines 91-99. -/

inductive JVal where
  | null
  | bool (b : Bool)
  | num (q : ℚ)
  | str (s : String)
  | arr (xs : List JVal)
  | obj (kvs : List (String × JVal))

/-- Dictionary lookup `d[k]` on a JSON object (first occurrence). -/
def jget (v : JVal) (k : String) : Option JVal :=
  match v with
  | .obj kvs => (kvs.find? (fun kv => kv.1 = k)).map (·.2)
  | _ => none

/-- Input of one `load_json_crime_data` call. -/
inductive FileInput where
  | missing
  | malformed
  | parsed (data : JVal)

/-- The structure check at heatmap.py lines 24-30:
`'result' in data and 'list' in data['result'] and
'incidents' in data['result']['list']`, requiring the incidents value to be
a JSON array (iterating or measuring any other shape either skips every
incident or raises, and every such path also ends in `None`; the returned
list is `some` exactly on the shape the loader can process). -/
def getIncidents (data : JVal) : Option (List JVal) :=
  match jget data "result" with
  | none => none
  | some res =>
      match jget res "list" with
      | none => none
      | some lst =>
          match jget lst "incidents" with
          | some (.arr incidents) => some incidents
          | _ => none

/-- The fields of one extracted record that the cleaning steps read
(heatmap.py lines 42-57): the raw `latitude`/`longitude` values taken from
`coordinates[1]`/`coordinates[0]`.  The remaining copied fields (`id`,
`date`, `city`, ...) are never consulted by the claims and are omitted. -/
structure RawRecord where
  latitude : JVal
  longitude : JVal

/-- Processing of one incident (heatmap.py lines 35-58): an incident with a
`location.coordinates` pair yields a record, an incident without one is
skipped, and a shape on which the Python expressions `'location' in
incident`, `incident['location']['coordinates']` or `coords[0]`/`coords[1]`
raise (non-container incident, non-container location, too-short or
non-list coordinates) is an `.error`, aborting the whole call into the
generic handler.  String and list incidents/locations, where `in` is
substring/membership search, are treated as lacking the key. -/
def extractRecord (incident : JVal) : Except Unit (Option RawRecord) :=
  match incident with
  | .obj _ =>
      match jget incident "location" with
      | none => .ok none
      | some loc =>
          match loc with
          | .obj _ =>
              match jget loc "coordinates" with
              | none => .ok none
              | some coords =>
                  match coords with
                  | .arr (c0 :: c1 :: _) =>
                      .ok (some { latitude := c1, longitude := c0 })
                  | .arr _ => .error ()
                  | _ => .error ()
          | .str _ => .ok none
          | .arr _ => .ok none
          | _ => .error ()
  | .str _ => .ok none
  | .arr _ => .ok none
  | _ => .error ()

/-- The record-building loop (heatmap.py lines 33-58). -/
def extractAll : List JVal → Except Unit (List RawRecord)
  | [] => .ok []
  | i :: is =>
      match extractRecord i with
      | .error e => .error e
      | .ok r0 =>
          match extractAll is with
          | .error e => .error e
          | .ok rs =>
              match r0 with
              | some r => .ok (r :: rs)
              | none => .ok rs

/-- Value of a digit string. -/
def digitsVal (cs : List Char) : Nat :=
  cs.foldl (fun n c => 10 * n + (c.toNat - Char.toNat '0')) 0

/-- Decimal-literal parsing as performed by `pd.to_numeric` on strings:
optional sign, integer part, optional fractional part.  (Exotic spellings —
scientific notation, `inf`, thousands separators — are treated as
unconvertible; `errors='coerce'` turns every unconvertible value into NaN,
so they are dropped by the NaN filter either way.) -/
def parseDecimal (s : String) : Option ℚ :=
  let cs := s.toList
  let signAndRest : ℚ × List Char :=
    match cs with
    | '-' :: rest => (-1, rest)
    | '+' :: rest => (1, rest)
    | _ => (1, cs)
  let sign := signAndRest.1
  let body := signAndRest.2
  let intPart := body.takeWhile Char.isDigit
  let rest := body.dropWhile Char.isDigit
  match rest with
  | [] =>
      if intPart.isEmpty then none
      else some (sign * (digitsVal intPart : ℚ))
  | '.' :: frac =>
      if frac.all Char.isDigit && (!intPart.isEmpty || !frac.isEmpty) then
        some (sign * ((digitsVal intPart : ℚ) +
          (digitsVal frac : ℚ) / ((10 : ℚ) ^ frac.length)))
      else none
  | _ => none

/-- `pd.to_numeric(column, errors='coerce')` on one cell (heatmap.py lines
71-72): numbers pass through, booleans become 0/1, numeric strings are
parsed, and everything else becomes NaN (embedded `none`). -/
def toNumeric (v : JVal) : Option ℚ :=
  match v with
  | .num q => some q
  | .bool b => some (if b then 1 else 0)
  | .str s => parseDecimal s
  | _ => none

/-- The coercion step (heatmap.py lines 71-72), per row. -/
def coerceCoords (rs : List RawRecord) : List (Option ℚ × Option ℚ) :=
  rs.map (fun r => (toNumeric r.latitude, toNumeric r.longitude))

/-- `df.dropna(subset=['latitude', 'longitude'])` (heatmap.py line 76):
keeps exactly the rows where both coordinates coerced. -/
def dropNaN (ps : List (Option ℚ × Option ℚ)) : List (ℚ × ℚ) :=
  ps.filterMap (fun p =>
    match p with
    | (some la, some lo) => some (la, lo)
    | _ => none)

/-- The coordinate-window predicate of the range filter
(heatmap.py lines 81-84). -/
def inWindow (p : ℚ × ℚ) : Bool :=
  decide (20 ≤ p.1) && decide (p.1 ≤ 55) &&
  decide (-140 ≤ p.2) && decide (p.2 ≤ -60)

/-- The range-filter step (heatmap.py lines 81-84). -/
def filterWindow (ps : List (ℚ × ℚ)) : List (ℚ × ℚ) :=
  ps.filter inWindow

/-- `load_json_crime_data` (heatmap.py lines 10-99).  The Python function
returns a 5-tuple `(df, 'latitude', 'longitude', ...)` on success; the
embedding returns the coordinate rows of `df`, the only part any claim
reads.  Every exception path — missing file (line 91), malformed JSON
(line 94), and any processing error (line 97) — returns `None`, as do the
explicit `return None` branches for a failed structure check (line 30) and
an empty record list (line 65).  Totality of this function embeds "never
raises to its caller". -/
def load_json_crime_data (input : FileInput) : Option (List (ℚ × ℚ)) :=
  match input with
  | .missing => none
  | .malformed => none
  | .parsed data =>
      match getIncidents data with
      | none => none
      | some incidents =>
          match extractAll incidents with
          | .error _ => none
          | .ok records =>
              if records.isEmpty then none
              else some (filterWindow (dropNaN (coerceCoords records)))

/-! ## Shortest-path search (spec §4.3, steps 2-3)

`route_calculator.py` is not among the available sources; the search engine
is modelled from the spec: a weighted directed graph (edge list over node
ids), a priority-queue best-first search whose frontier is keyed by
accumulated cost plus heuristic — the heuristic is `0` for Dijkstra — with
ties broken by smaller node id, a per-call visited set, and termination
when the goal node is popped.  The queue is a lazy list of entries
(re-inserted on every relaxation; stale entries for already-settled nodes
are discarded when popped), and the recursion carries explicit fuel; every
theorem below supplies fuel at least `searchFuel`, which the termination
measure shows is never exhausted. -/

/-- A directed weighted edge `(source id, target id, weight)`. -/
abbrev GEdge : Type := Nat × Nat × ℚ

/-- Outgoing edges of `u`: `(target, weight)` pairs. -/
def outEdges (es : List GEdge) (u : Nat) : List (Nat × ℚ) :=
  es.filterMap (fun e => if e.1 = u then some (e.2.1, e.2.2) else none)

/-- A frontier entry: a node together with the accumulated path cost at
which it was inserted. -/
structure Entry where
  node : Nat
  gcost : ℚ
deriving DecidableEq

/-- Priority of an entry: accumulated cost plus heuristic, with the node id
as tie-breaker (spec §4.3 step 2: "ties broken by smaller node id for
determinism"). -/
def entryKey (h : Nat → ℚ) (e : Entry) : ℚ × Nat :=
  (e.gcost + h e.node, e.node)

/-- Lexicographic comparison of priorities. -/
def keyLE (a b : ℚ × Nat) : Bool :=
  decide (a.1 < b.1) || (decide (a.1 = b.1) && decide (a.2 ≤ b.2))

/-- Index of the first entry with minimal priority (the entry the priority
queue pops next). -/
def minIdxBy (h : Nat → ℚ) : List Entry → Nat
  | [] => 0
  | e :: es =>
      match es with
      | [] => 0
      | _ :: _ =>
          let j := minIdxBy h es
          if keyLE (entryKey h e) (entryKey h (es.getD j ⟨0, 0⟩)) then 0
          else j + 1

/-- Search state: the settled (visited) entries in settle order, and the
pending frontier entries. -/
structure SState where
  settled : List Entry
  heap : List Entry
deriving DecidableEq

/-- Whether a node is already settled. -/
def settledHas (settled : List Entry) (n : Nat) : Bool :=
  settled.any (fun e => e.node = n)

/-- The search loop: pop the minimal entry; discard it if its node is
already settled; otherwise settle it, stop if it is the goal, and relax its
outgoing edges.  Returns the cost at which the goal was popped (`none` for
an emptied frontier or exhausted fuel) and the final state. -/
def searchLoop (es : List GEdge) (h : Nat → ℚ) (t : Nat) :
    Nat → SState → Option ℚ × SState
  | 0, st => (none, st)
  | fuel + 1, st =>
      match st.heap with
      | [] => (none, st)
      | _ :: _ =>
          let i := minIdxBy h st.heap
          let e := st.heap.getD i ⟨0, 0⟩
          let rest := st.heap.eraseIdx i
          if settledHas st.settled e.node then
            searchLoop es h t fuel ⟨st.settled, rest⟩
          else
            let settled := st.settled ++ [e]
            if e.node = t then (some e.gcost, ⟨settled, rest⟩)
            else
              searchLoop es h t fuel
                ⟨settled,
                 rest ++ (outEdges es e.node).map
                   (fun p => ⟨p.1, e.gcost + p.2⟩)⟩

/-- A full search run from `s` to `t`. -/
def searchRun (es : List GEdge) (h : Nat → ℚ) (s t : Nat) (fuel : Nat) :
    Option ℚ × SState :=
  searchLoop es h t fuel ⟨[], [⟨s, 0⟩]⟩

/-- Dijkstra: uniform-cost search, i.e. the search with heuristic `0`
(spec §4.3 step 2). -/
def dijkstraRun (es : List GEdge) (s t : Nat) (fuel : Nat) :
    Option ℚ × SState :=
  searchRun es (fun _ => 0) s t fuel

/-- A*: the same search keyed by accumulated cost plus heuristic
(spec §4.3 step 2). -/
def astarRun (es : List GEdge) (h : Nat → ℚ) (s t : Nat) (fuel : Nat) :
    Option ℚ × SState :=
  searchRun es h s t fuel

/-- Total cost of the returned path (`none`: no route found). -/
def runCost (r : Option ℚ × SState) : Option ℚ := r.1

/-- Number of nodes the search visited (settled), the spec's
"node count visited" observable (spec §4.3 step 5). -/
def runVisits (r : Option ℚ × SState) : Nat := r.2.settled.length

/-- Fuel sufficient for any run on `es` (proved below via a termination
measure). -/
def searchFuel (es : List GEdge) : Nat :=
  (es.length + 2) * (es.length + 2)

/-! ### Walks, distances, heuristic properties -/

/-- `IsWalk es s t w`: `w` is a chain of edges of `es` leading from `s`
to `t`. -/
def IsWalk (es : List GEdge) : Nat → Nat → List GEdge → Prop
  | s, t, [] => s = t
  | s, t, e :: w => e ∈ es ∧ e.1 = s ∧ IsWalk es e.2.1 t w

/-- Total weight of a walk. -/
def walkCost (w : List GEdge) : ℚ :=
  (w.map (fun e => e.2.2)).sum

/-- Reachability along edges of `es`. -/
def ReachableG (es : List GEdge) (s t : Nat) : Prop :=
  ∃ w, IsWalk es s t w

/-- `d` is the shortest-path distance from `s` to `t`. -/
def IsShortestDist (es : List GEdge) (s t : Nat) (d : ℚ) : Prop :=
  (∃ w, IsWalk es s t w ∧ walkCost w = d) ∧
  ∀ w, IsWalk es s t w → d ≤ walkCost w

/-- All edge weights are nonnegative (spec §4.2: "no zero or negative
weights — required for Dijkstra correctness"). -/
def NonnegWeights (es : List GEdge) : Prop :=
  ∀ e ∈ es, 0 ≤ e.2.2

/-- The heuristic never overestimates the remaining cost to `t`
(spec glossary: "admissible heuristic"). -/
def AdmissibleH (es : List GEdge) (h : Nat → ℚ) (t : Nat) : Prop :=
  ∀ x w, IsWalk es x t w → h x ≤ walkCost w

/-- The heuristic is consistent: it satisfies the triangle inequality along
every edge.  The spec's heuristic — great-circle distance to the goal
scaled by a speed bound (§4.3 step 2) — has this property whenever edge
costs dominate the scaled great-circle length of the edge. -/
def ConsistentH (es : List GEdge) (h : Nat → ℚ) : Prop :=
  ∀ e ∈ es, h e.1 ≤ e.2.2 + h e.2.1

/-- Invariant of the search loop for a run from `s` towards `t` (used to
prove that the cost a run returns is the shortest-path distance):
settled entries are shortest, frontier entries are costs of real walks,
every settled node's edge to an unsettled node is represented in the heap,
and the goal is not yet settled. -/
structure LoopInv (es : List GEdge) (s t : Nat) (st : SState) : Prop where
  settled_nodup : (st.settled.map Entry.node).Nodup
  settled_shortest : ∀ e ∈ st.settled, IsShortestDist es s e.node e.gcost
  settled_supp : ∀ e ∈ st.settled,
    e.node = s ∨ e.node ∈ es.map (fun ed => ed.2.1)
  heap_walks : ∀ e ∈ st.heap, ∃ w, IsWalk es s e.node w ∧ walkCost w = e.gcost
  heap_supp : ∀ e ∈ st.heap,
    e.node = s ∨ e.node ∈ es.map (fun ed => ed.2.1)
  start : settledHas st.settled s = true ∨ (⟨s, 0⟩ : Entry) ∈ st.heap
  frontier : ∀ e ∈ st.settled, ∀ p ∈ outEdges es e.node,
    settledHas st.settled p.1 = false →
      (⟨p.1, e.gcost + p.2⟩ : Entry) ∈ st.heap
  t_unsettled : settledHas st.settled t = false

/-- Termination measure of the search loop: every iteration strictly
decreases it, so fuel exceeding the initial measure is never exhausted. -/
def loopMeasure (es : List GEdge) (st : SState) : Nat :=
  st.heap.length + (es.length + 1 - st.settled.length) * (es.length + 1)

/-! ## Concrete instances used by witnesses and counterexamples -/

/-- An application state after successful initialization. -/
def exInitializedState : AppState :=
  { initialAppState with initialized := true }

/-- A route-calculator run in which every route type fails (e.g. the
request lies out of coverage). -/
def exCalcFail : String → Except String RouteData :=
  fun _ => .error "No route found"

/-- A comparison request listing the same route type twice. -/
def exDupRequest : RouteCompareRequestModel :=
  mkRouteCompareRequestModel 0 0 0 0 (some ["fastest", "fastest"]) none

/-- Number of entries of a successful handler response. -/
def respLength {α : Type} (r : Except HTTPError (List α)) : Option Nat :=
  match r with
  | .ok l => some l.length
  | .error _ => none

/-- A startup environment whose first data file is missing. -/
def exFailEnv : InitEnv :=
  { indyExists := false, indyPath := "/data/IndianapolisCrime.csv",
    wlExists := true, wlPath := "/data/WLCrime.json",
    crime := .ok (), osm := .ok (), calib := .ok { crime_analysis := none },
    graphs := .ok (), exportOk := true, routeCalcOk := true, elapsed := 1 }

/-- An incident with an in-window GeoJSON coordinate pair
(longitude first). -/
def exGoodIncident : JVal :=
  .obj [("location", .obj [("coordinates", .arr [.num (-87), .num 40])])]

/-- A crime-data document with the expected nested structure. -/
def exCrimeJson : JVal :=
  .obj [("result", .obj [("list", .obj [("incidents", .arr [exGoodIncident])])])]

/-- Graph A: weights are positive; the heuristic below is admissible for
goal `4` but not consistent (the edge `2 → 1` violates the triangle
inequality). -/
def exGraphA : List GEdge := [(0, 1, 4), (0, 2, 2), (2, 1, 1), (1, 4, 4), (0, 3, 15/2)]

/-- Admissible, inconsistent heuristic for `exGraphA` with goal `4`. -/
def exHeurA : Nat → ℚ := fun n => if n = 2 then 5 else 0

/-- Graph B: weights are positive and the heuristic below is consistent,
yet A* settles a cost-tied node (id 2) that Dijkstra never visits. -/
def exGraphB : List GEdge := [(0, 3, 5), (3, 1, 2), (0, 2, 7)]

/-- Consistent heuristic for `exGraphB` with goal `1`. -/
def exHeurB : Nat → ℚ := fun n => if n = 0 then 7 else if n = 3 then 2 else 0

/-! # Theorems -/

/-! ## Shared helper lemmas -/

theorem initTrySteps_error_startup_errors (env : InitEnv) (st : AppState)
    (m : String) (st' : AppState)
    (h : initTrySteps env st = .error (m, st')) :
    st'.startup_errors = st.startup_errors := by
  obtain ⟨ie, ip, we, wp, cr, os, ca, gr, ex, rc, el⟩ := env
  cases ie <;> cases we <;> cases cr <;> cases os <;> cases ca <;>
    cases gr <;> cases ex <;> cases rc <;>
      simp_all [initTrySteps] <;> exact (h.2 ▸ rfl)

/-! ## C2: request validation -/

/-- C2, counterexample: the claim extends the validation contract to
route-comparison requests, but `RouteCompareRequestModel` declares no
validator for `algorithm` (or `route_types`): a comparison request whose
algorithm is `"bogus"` — outside `{dijkstra, astar}` — is accepted. -/
theorem C2_counterexample :
    (mkRouteCompareRequestModel 0 0 0 0 none (some "bogus")).validOK = true ∧
    validate_algorithm "bogus" = false := by
  decide

/-- C2, amended: constructing a single-route request succeeds exactly when
both latitudes are in [-90,90], both longitudes are in [-180,180], the
route type is one of {fastest, safe, bike, safe_bike} and the algorithm is
one of {dijkstra, astar}; constructing a route-comparison request validates
only the coordinate bounds — its `algorithm` and `route_types` fields are
accepted unvalidated. -/
theorem C2_amended (r : RouteRequestModel) (c : RouteCompareRequestModel) :
    (r.validOK = true ↔
      ((-90 ≤ r.start_lat ∧ r.start_lat ≤ 90) ∧
       (-90 ≤ r.end_lat ∧ r.end_lat ≤ 90) ∧
       (-180 ≤ r.start_lon ∧ r.start_lon ≤ 180) ∧
       (-180 ≤ r.end_lon ∧ r.end_lon ≤ 180) ∧
       r.route_type ∈ valid_types ∧ r.algorithm ∈ valid_algorithms)) ∧
    (c.validOK = true ↔
      ((-90 ≤ c.start_lat ∧ c.start_lat ≤ 90) ∧
       (-90 ≤ c.end_lat ∧ c.end_lat ≤ 90) ∧
       (-180 ≤ c.start_lon ∧ c.start_lon ≤ 180) ∧
       (-180 ≤ c.end_lon ∧ c.end_lon ≤ 180))) := by
  constructor <;>
    · simp only [RouteRequestModel.validOK, RouteCompareRequestModel.validOK,
        validate_latitude, validate_longitude, validate_route_type,
        validate_algorithm, Bool.and_eq_true, decide_eq_true_eq]
      tauto

/-! ## C3: initialization failures are contained -/

/-- C3: whenever any step of `initialize_system` raises (missing data file,
failed crime/OSM analysis, calibration failure, unusable road network,
graph-build failure, route-calculator failure), the exception is caught:
the handler appends `"System initialization failed: " + str(e)` to
`startup_errors`, the `initialized` flag is left `false`, and — since
`initialize_system` is a total function into `AppState` — nothing
re-raises, so the process starts in a degraded state. -/
theorem C3_init_failure (env : InitEnv) (st : AppState) (m : String)
    (st' : AppState) (hfail : initTrySteps env st = .error (m, st')) :
    (initialize_system env st).initialized = false ∧
    (initialize_system env st).startup_errors =
      st.startup_errors ++ ["System initialization failed: " ++ m] := by
  have hse := initTrySteps_error_startup_errors env st m st' hfail
  unfold initialize_system
  rw [hfail]
  simp [hse]

/-- C3, witness: a startup with the Indianapolis data file missing. -/
theorem C3_init_failure_witness :
    (initialize_system exFailEnv initialAppState).initialized = false ∧
    (initialize_system exFailEnv initialAppState).startup_errors =
      initialAppState.startup_errors ++
        ["System initialization failed: " ++
          ("Indianapolis crime data not found: " ++ exFailEnv.indyPath)] :=
  C3_init_failure exFailEnv initialAppState _ initialAppState rfl

/-! ## C4: health probe -/

/-- C4: `health_check` is total (the probe never fails, any exception from
the statistics call being caught into `system_info`), reports status
`"healthy"` exactly when initialization completed with an empty
startup-error list, and always carries the accumulated startup errors. -/
theorem C4_health_check (st : AppState)
    (getStats : Except String RouteStatistics) :
    ((health_check st getStats).status = "healthy" ↔
      st.initialized = true ∧ st.startup_errors = []) ∧
    (health_check st getStats).errors = st.startup_errors := by
  refine ⟨?_, rfl⟩
  by_cases h1 : st.initialized <;>
    by_cases h2 : st.startup_errors = [] <;>
      simp [health_check, h1, h2, List.isEmpty_iff]

/-! ## C5: no routing before initialization -/

/-- C5: whenever the `initialized` flag is false, the `/route`,
`/route/compare` and `/stats` handlers fail with HTTP status 503; the
result is the same for every possible route-calculator behaviour, so the
calculator is never consulted. -/
theorem C5_uninitialized_503 (st : AppState) (hst : st.initialized = false) :
    (∀ (calcFn : RouteCalc) (req : RouteRequestModel),
       calculate_route calcFn st req =
         .error { status_code := 503,
                  detail := "System not initialized. Check /health for details." }) ∧
    (∀ (calcOne : String → Except String RouteData)
       (req : RouteCompareRequestModel),
       compare_routes calcOne st req =
         .error { status_code := 503,
                  detail := "System not initialized. Check /health for details." }) ∧
    (∀ getStats : AppState → Except String RouteStatistics,
       (get_system_stats getStats st).1 =
         .error { status_code := 503,
                  detail := "System not initialized. Check /health for details." }) := by
  refine ⟨fun calcFn req => ?_, fun calcOne req => ?_, fun getStats => ?_⟩ <;>
    simp [calculate_route, compare_routes, get_system_stats, hst]

/-- C5, witness: the fresh (uninitialized) application state rejects a
route request with a 503. -/
theorem C5_uninitialized_503_witness :
    calculate_route (fun _ => .error "never called") initialAppState
        (mkRouteRequestModel 0 0 0 0 "fastest" none) =
      .error { status_code := 503,
               detail := "System not initialized. Check /health for details." } :=
  (C5_uninitialized_503 initialAppState rfl).1 _ _

/-! ## C7: statistics are read-only -/

/-- C7: the `/stats` handler leaves the application state unchanged for
every pure statistics provider (the route calculator's
`get_route_statistics` is modelled from the spec as read-only), so
repeated calls observe the same application state and return the same
result. -/
theorem C7_stats_readonly
    (getStats : AppState → Except String RouteStatistics) (st : AppState) :
    (get_system_stats getStats st).2 = st ∧
    (get_system_stats getStats ((get_system_stats getStats st).2)).1 =
      (get_system_stats getStats st).1 := by
  have h2 : (get_system_stats getStats st).2 = st := by
    unfold get_system_stats
    split
    · rfl
    · split <;> rfl
  exact ⟨h2, by rw [h2]⟩

/-! ## C8: defaults -/

/-- C8: a comparison request whose `route_types` is omitted/null is
computed for exactly `["fastest", "safe", "bike", "safe_bike"]`, in that
order, and an omitted `algorithm` defaults to `"dijkstra"` in both request
models. -/
theorem C8_defaults (st : AppState)
    (calcOne : String → Except String RouteData)
    (req : RouteCompareRequestModel) (hinit : st.initialized = true)
    (hnone : req.route_types = none) :
    compare_routes calcOne st req =
      .ok (RouteCalculator.compare_routes calcOne req.algorithm
            ["fastest", "safe", "bike", "safe_bike"]) ∧
    (∀ (a b c d : ℚ) (rt : String),
       (mkRouteRequestModel a b c d rt none).algorithm = "dijkstra") ∧
    (∀ (a b c d : ℚ) (rts : Option (List String)),
       (mkRouteCompareRequestModel a b c d rts none).algorithm = "dijkstra") := by
  refine ⟨?_, fun _ _ _ _ _ => rfl, fun _ _ _ _ _ => rfl⟩
  simp [compare_routes, hinit, hnone, defaultRouteTypes]

/-- C8, witness: an initialized system, a comparison request with both
fields omitted. -/
theorem C8_defaults_witness :
    compare_routes exCalcFail exInitializedState
        (mkRouteCompareRequestModel 0 0 0 0 none none) =
      .ok (RouteCalculator.compare_routes exCalcFail
            (mkRouteCompareRequestModel 0 0 0 0 none none).algorithm
            ["fastest", "safe", "bike", "safe_bike"]) ∧
    (∀ (a b c d : ℚ) (rt : String),
       (mkRouteRequestModel a b c d rt none).algorithm = "dijkstra") ∧
    (∀ (a b c d : ℚ) (rts : Option (List String)),
       (mkRouteCompareRequestModel a b c d rts none).algorithm = "dijkstra") :=
  C8_defaults exInitializedState exCalcFail
    (mkRouteCompareRequestModel 0 0 0 0 none none) rfl rfl

/-! ## C1: comparison always answers per route type -/

theorem dictInsert_mem_fst {α : Type} (d : List (String × α)) (k k' : String)
    (v : α) :
    k' ∈ (dictInsert d k v).map Prod.fst ↔ k' = k ∨ k' ∈ d.map Prod.fst := by
  induction d with
  | nil => simp [dictInsert]
  | cons p rest ih =>
      obtain ⟨k0, v0⟩ := p
      by_cases hk : k0 = k <;>
        · simp [dictInsert, hk, ih]
          try tauto

theorem dictInsert_nodup_fst {α : Type} (d : List (String × α)) (k : String)
    (v : α) (h : (d.map Prod.fst).Nodup) :
    ((dictInsert d k v).map Prod.fst).Nodup := by
  induction d with
  | nil => simp [dictInsert]
  | cons p rest ih =>
      obtain ⟨k0, v0⟩ := p
      simp only [List.map_cons, List.nodup_cons] at h
      by_cases hk : k0 = k
      · subst hk
        simpa [dictInsert] using h
      · have hmem : k0 ∉ (dictInsert rest k v).map Prod.fst := by
          rw [dictInsert_mem_fst]
          rintro (rfl | hmem)
          · exact hk rfl
          · exact h.1 hmem
        simp only [dictInsert, hk, if_false, List.map_cons, List.nodup_cons]
        exact ⟨hmem, ih h.2⟩

theorem dictInsert_mem_elim {α : Type} {d : List (String × α)} {k : String}
    {v : α} {p : String × α} (hp : p ∈ dictInsert d k v) :
    p = (k, v) ∨ p ∈ d := by
  induction d with
  | nil => simpa [dictInsert] using hp
  | cons q rest ih =>
      obtain ⟨k0, v0⟩ := q
      by_cases hk : k0 = k
      · simp only [dictInsert, hk, if_pos rfl] at hp
        rcases List.mem_cons.mp hp with h | h
        · exact .inl h
        · exact .inr (List.mem_cons_of_mem _ h)
      · simp only [dictInsert, hk, if_false] at hp
        rcases List.mem_cons.mp hp with h | h
        · exact .inr (by simp [h])
        · rcases ih h with h' | h'
          · exact .inl h'
          · exact .inr (List.mem_cons_of_mem _ h')

theorem insertFold_mem_fst {α : Type} (f : String → α) (rts : List String)
    (d : List (String × α)) (k : String) :
    k ∈ ((rts.foldl (fun acc rt => dictInsert acc rt (f rt)) d).map Prod.fst) ↔
      k ∈ d.map Prod.fst ∨ k ∈ rts := by
  induction rts generalizing d with
  | nil => simp
  | cons rt rts ih =>
      simp only [List.foldl_cons, ih, dictInsert_mem_fst, List.mem_cons]
      tauto

theorem insertFold_nodup_fst {α : Type} (f : String → α) (rts : List String)
    (d : List (String × α)) (h : (d.map Prod.fst).Nodup) :
    (((rts.foldl (fun acc rt => dictInsert acc rt (f rt)) d)).map
      Prod.fst).Nodup := by
  induction rts generalizing d with
  | nil => simpa
  | cons rt rts ih =>
      exact ih _ (dictInsert_nodup_fst _ _ _ h)

theorem insertFold_entries {α : Type} (f : String → α) (rts : List String)
    (d : List (String × α)) (hinv : ∀ p ∈ d, p.2 = f p.1) :
    ∀ p ∈ rts.foldl (fun acc rt => dictInsert acc rt (f rt)) d,
      p.2 = f p.1 := by
  induction rts generalizing d with
  | nil => exact hinv
  | cons rt rts ih =>
      refine ih _ (fun p hp => ?_)
      rcases dictInsert_mem_elim hp with h | h
      · simp [h]
      · exact hinv p h

/-- C1, counterexample: the claim promises `len(route_types)` entries, but
the results are keyed by route type, so a request that lists `"fastest"`
twice gets a single entry back — 1 entry for 2 requested types. -/
theorem C1_counterexample :
    exDupRequest.route_types = some ["fastest", "fastest"] ∧
    respLength (compare_routes exCalcFail exInitializedState exDupRequest) =
      some 1 := by
  constructor <;> rfl

/-- C1, amended: for every call to `compare_routes`, the returned mapping
has exactly one entry per *distinct* requested route type (duplicates
collapse under dictionary keying; for duplicate-free requests this is
`len(route_types)` entries): its keys are exactly the requested types,
without repetition.  Each entry is computed independently from its own
route type's outcome — a success payload, or a `RouteResult` whose payload
fields are empty and which carries only the error message — and the
function is total, so no exception escapes to the caller. -/
theorem C1_amended (calcOne : String → Except String RouteData)
    (algorithm : String) (rts : List String) :
    ((RouteCalculator.compare_routes calcOne algorithm rts).map
      Prod.fst).Nodup ∧
    (∀ rt, rt ∈ (RouteCalculator.compare_routes calcOne algorithm rts).map
        Prod.fst ↔ rt ∈ rts) ∧
    (RouteCalculator.compare_routes calcOne algorithm rts).length =
      rts.dedup.length ∧
    (∀ p ∈ RouteCalculator.compare_routes calcOne algorithm rts,
       p.2 = compareEntry algorithm p.1 (calcOne p.1)) ∧
    (∀ rt d0, (compareEntry algorithm rt (Except.ok d0)).error_message =
       none) ∧
    (∀ rt m, compareEntry algorithm rt (Except.error m) =
       { route := [], distance_meters := 0, estimated_time_minutes := 0,
         safety_score := 0, bike_coverage_percent := 0, route_type := rt,
         algorithm_used := algorithm, calculation_time_ms := 0,
         node_count := 0, error_message := some m }) := by
  have hnodup :
      ((RouteCalculator.compare_routes calcOne algorithm rts).map
        Prod.fst).Nodup :=
    insertFold_nodup_fst _ rts [] (by simp)
  have hmem : ∀ rt,
      rt ∈ (RouteCalculator.compare_routes calcOne algorithm rts).map
        Prod.fst ↔ rt ∈ rts := by
    intro rt
    simpa using insertFold_mem_fst
      (fun rt => compareEntry algorithm rt (calcOne rt)) rts [] rt
  refine ⟨hnodup, hmem, ?_, ?_, fun _ _ => rfl, fun _ _ => rfl⟩
  · have hperm :
        List.Perm
          ((RouteCalculator.compare_routes calcOne algorithm rts).map
            Prod.fst) rts.dedup := by
      rw [List.perm_ext_iff_of_nodup hnodup rts.nodup_dedup]
      intro a
      rw [hmem a, List.mem_dedup]
    calc (RouteCalculator.compare_routes calcOne algorithm rts).length
        = ((RouteCalculator.compare_routes calcOne algorithm rts).map
            Prod.fst).length := (List.length_map _ _).symm
      _ = rts.dedup.length := hperm.length_eq
  · exact insertFold_entries _ rts [] (by simp)

/-! ## C9 / C10: heatmap loader -/

theorem mem_filterWindow {ps : List (ℚ × ℚ)} {p : ℚ × ℚ}
    (hp : p ∈ filterWindow ps) :
    20 ≤ p.1 ∧ p.1 ≤ 55 ∧ -140 ≤ p.2 ∧ p.2 ≤ -60 := by
  simp only [filterWindow, List.mem_filter, inWindow, Bool.and_eq_true,
    decide_eq_true_eq] at hp
  tauto

/-- C9: every row of a successfully returned data frame carries coordinates
— numeric and non-NaN by construction of the dropna step, which the row
type `ℚ × ℚ` embeds — with latitude in [20,55] and longitude in
[-140,-60]; records lacking coordinates are skipped by extraction,
un-coercible ones are dropped by the NaN filter, and out-of-window ones by
the range filter, so none of them appears in the result. -/
theorem C9_coordinate_window (input : FileInput) (df : List (ℚ × ℚ))
    (h : load_json_crime_data input = some df) :
    ∀ p ∈ df, 20 ≤ p.1 ∧ p.1 ≤ 55 ∧ -140 ≤ p.2 ∧ p.2 ≤ -60 := by
  intro p hp
  cases input with
  | missing => simp [load_json_crime_data] at h
  | malformed => simp [load_json_crime_data] at h
  | parsed data =>
      simp only [load_json_crime_data] at h
      split at h
      · exact absurd h (by simp)
      · split at h
        · exact absurd h (by simp)
        · split at h
          · exact absurd h (by simp)
          · obtain rfl := Option.some.inj h
            exact mem_filterWindow hp

/-- C9, witness: a document with one in-window incident (longitude first in
GeoJSON order) loads to the single row `(40, -87)`. -/
theorem C9_coordinate_window_witness :
    load_json_crime_data (.parsed exCrimeJson) = some [((40 : ℚ), (-87 : ℚ))] ∧
    (20 ≤ (40 : ℚ) ∧ (40 : ℚ) ≤ 55 ∧ -140 ≤ (-87 : ℚ) ∧ (-87 : ℚ) ≤ -60) :=
  ⟨by rfl,
   C9_coordinate_window (.parsed exCrimeJson) [((40 : ℚ), (-87 : ℚ))]
     (by rfl) ((40 : ℚ), (-87 : ℚ)) (by simp)⟩

/-- C10: `load_json_crime_data` never raises — it is a total function into
`Option`, with every exception path embedded and caught — and returns
`none` for each failure mode: missing file, malformed JSON, a document
without the `result.list.incidents` structure, a processing exception
(malformed incident, short or non-list coordinates), and a file yielding
zero extracted records. -/
theorem C10_never_raises :
    load_json_crime_data .missing = none ∧
    load_json_crime_data .malformed = none ∧
    (∀ data, getIncidents data = none →
       load_json_crime_data (.parsed data) = none) ∧
    (∀ data incidents, getIncidents data = some incidents →
       extractAll incidents = .error () →
       load_json_crime_data (.parsed data) = none) ∧
    (∀ data incidents, getIncidents data = some incidents →
       extractAll incidents = .ok [] →
       load_json_crime_data (.parsed data) = none) := by
  refine ⟨rfl, rfl, ?_, ?_, ?_⟩
  · intro data hgi
    simp [load_json_crime_data, hgi]
  · intro data incidents hgi hext
    simp [load_json_crime_data, hgi, hext]
  · intro data incidents hgi hext
    simp [load_json_crime_data, hgi, hext]

/-- C10, witness: a JSON document that is a bare number has no incidents
structure and loads to `None`. -/
theorem C10_never_raises_witness :
    load_json_crime_data (.parsed (JVal.num 3)) = none :=
  C10_never_raises.2.2.1 (JVal.num 3) rfl

/-! ## C6: Dijkstra versus A*

Helper lemmas about walks, priorities and the loop state, leading to the
correctness theorem `searchLoop_spec`: with nonnegative weights and a
consistent heuristic, the cost a run returns is the shortest-path distance
(and `none` means the goal is unreachable).  Applied to the zero heuristic
— consistent whenever weights are nonnegative — and to the request's
heuristic, this settles the cost comparison between Dijkstra and A*. -/

theorem walkCost_nil : walkCost [] = 0 := rfl

theorem walkCost_cons (e : GEdge) (w : List GEdge) :
    walkCost (e :: w) = e.2.2 + walkCost w := by
  simp [walkCost]

theorem walkCost_append (w₁ w₂ : List GEdge) :
    walkCost (w₁ ++ w₂) = walkCost w₁ + walkCost w₂ := by
  simp [walkCost]

theorem IsWalk.nonneg_cost {es : List GEdge} (hn : NonnegWeights es) :
    ∀ {x z : Nat} {w : List GEdge}, IsWalk es x z w → 0 ≤ walkCost w := by
  intro x z w
  induction w generalizing x with
  | nil => intro _; simp [walkCost_nil]
  | cons e w ih =>
      rintro ⟨he, -, hw⟩
      rw [walkCost_cons]
      exact add_nonneg (hn e he) (ih hw)

theorem IsWalk.append {es : List GEdge} :
    ∀ {x y z : Nat} {w₁ w₂ : List GEdge},
      IsWalk es x y w₁ → IsWalk es y z w₂ → IsWalk es x z (w₁ ++ w₂) := by
  intro x y z w₁
  induction w₁ generalizing x with
  | nil =>
      intro w₂ h₁ h₂
      obtain rfl : x = y := h₁
      simpa using h₂
  | cons e w ih =>
      intro w₂ h₁ h₂
      obtain ⟨he, h1, hw⟩ := h₁
      exact ⟨he, h1, ih hw h₂⟩

theorem IsWalk.single {es : List GEdge} {e : GEdge} (he : e ∈ es) :
    IsWalk es e.1 e.2.1 [e] :=
  ⟨he, rfl, rfl⟩

theorem ConsistentH.le_walk {es : List GEdge} {h : Nat → ℚ}
    (hc : ConsistentH es h) :
    ∀ {a b : Nat} {w : List GEdge}, IsWalk es a b w →
      h a ≤ walkCost w + h b := by
  intro a b w
  induction w generalizing a with
  | nil =>
      rintro rfl
      simp [walkCost_nil]
  | cons e w ih =>
      rintro ⟨he, rfl, hw⟩
      have h₁ := hc e he
      have h₂ := ih hw
      rw [walkCost_cons]
      linarith

theorem mem_outEdges {es : List GEdge} {u : Nat} {p : Nat × ℚ} :
    p ∈ outEdges es u ↔ (u, p.1, p.2) ∈ es := by
  constructor
  · intro hp
    simp only [outEdges, List.mem_filterMap] at hp
    obtain ⟨⟨a, b, c⟩, he, hf⟩ := hp
    by_cases h1 : a = u
    · subst h1
      rw [if_pos rfl] at hf
      obtain rfl : (b, c) = p := Option.some.inj hf
      exact he
    · simp [h1] at hf
  · intro hp
    simp only [outEdges, List.mem_filterMap]
    exact ⟨(u, p.1, p.2), hp, by simp⟩

theorem IsShortestDist.unique {es : List GEdge} {s t : Nat} {d₁ d₂ : ℚ}
    (h₁ : IsShortestDist es s t d₁) (h₂ : IsShortestDist es s t d₂) :
    d₁ = d₂ := by
  obtain ⟨⟨w₁, hw₁, hc₁⟩, hmin₁⟩ := h₁
  obtain ⟨⟨w₂, hw₂, hc₂⟩, hmin₂⟩ := h₂
  have a₁ := hmin₁ w₂ hw₂
  have a₂ := hmin₂ w₁ hw₁
  linarith

theorem keyLE_refl (a : ℚ × Nat) : keyLE a a = true := by
  simp [keyLE]

theorem keyLE_trans {a b c : ℚ × Nat} (h₁ : keyLE a b = true)
    (h₂ : keyLE b c = true) : keyLE a c = true := by
  simp only [keyLE, Bool.or_eq_true, Bool.and_eq_true, decide_eq_true_eq]
    at h₁ h₂ ⊢
  rcases h₁ with h₁ | ⟨he₁, hn₁⟩ <;> rcases h₂ with h₂ | ⟨he₂, hn₂⟩
  · exact .inl (h₁.trans h₂)
  · exact .inl (he₂ ▸ h₁)
  · exact .inl (he₁ ▸ h₂)
  · exact .inr ⟨he₁.trans he₂, hn₁.trans hn₂⟩

theorem keyLE_total (a b : ℚ × Nat) :
    keyLE a b = true ∨ keyLE b a = true := by
  simp only [keyLE, Bool.or_eq_true, Bool.and_eq_true, decide_eq_true_eq]
  rcases lt_trichotomy a.1 b.1 with h | h | h
  · exact .inl (.inl h)
  · rcases Nat.le_total a.2 b.2 with hn | hn
    · exact .inl (.inr ⟨h, hn⟩)
    · exact .inr (.inr ⟨h.symm, hn⟩)
  · exact .inr (.inl h)

theorem keyLE_fst {a b : ℚ × Nat} (h : keyLE a b = true) : a.1 ≤ b.1 := by
  simp only [keyLE, Bool.or_eq_true, Bool.and_eq_true, decide_eq_true_eq] at h
  rcases h with h | ⟨h, -⟩
  · exact h.le
  · exact h.le

theorem getD_of_lt {α : Type} (l : List α) (i : Nat) (d : α)
    (h : i < l.length) : l.getD i d = l[i] := by
  simp [List.getD_eq_getElem?_getD, List.getElem?_eq_getElem h]

theorem getD_mem_of_lt {α : Type} (l : List α) (i : Nat) (d : α)
    (h : i < l.length) : l.getD i d ∈ l := by
  rw [getD_of_lt l i d h]
  exact List.getElem_mem h

theorem minIdxBy_cons_cons (h : Nat → ℚ) (e e' : Entry) (es : List Entry) :
    minIdxBy h (e :: e' :: es) =
      if keyLE (entryKey h e)
          (entryKey h ((e' :: es).getD (minIdxBy h (e' :: es)) ⟨0, 0⟩)) then 0
      else minIdxBy h (e' :: es) + 1 := rfl

theorem minIdxBy_lt_length (h : Nat → ℚ) :
    ∀ l : List Entry, l ≠ [] → minIdxBy h l < l.length
  | [], hne => absurd rfl hne
  | [_], _ => Nat.zero_lt_one
  | e :: e' :: es, _ => by
      have hlt := minIdxBy_lt_length h (e' :: es) (by simp)
      rw [minIdxBy_cons_cons]
      split
      · simp
      · simpa using Nat.succ_lt_succ hlt

theorem minIdxBy_min (h : Nat → ℚ) :
    ∀ (l : List Entry) (k : Nat), k < l.length →
      keyLE (entryKey h (l.getD (minIdxBy h l) ⟨0, 0⟩))
        (entryKey h (l.getD k ⟨0, 0⟩)) = true
  | [], k, hk => by simp at hk
  | [e], k, hk => by
      obtain rfl : k = 0 := Nat.lt_one_iff.mp hk
      exact keyLE_refl _
  | e :: e' :: es, k, hk => by
      rw [minIdxBy_cons_cons]
      split
      · -- head is minimal
        rename_i hle
        match k with
        | 0 => exact keyLE_refl _
        | k' + 1 =>
            have hk' : k' < (e' :: es).length := Nat.lt_of_succ_lt_succ hk
            have hmin := minIdxBy_min h (e' :: es) k' hk'
            simp only [List.getD_cons_zero, List.getD_cons_succ]
            exact keyLE_trans (by simpa using hle) hmin
      · -- minimum lies in the tail
        rename_i hnle
        have htot := (keyLE_total (entryKey h e)
            (entryKey h ((e' :: es).getD (minIdxBy h (e' :: es)) ⟨0, 0⟩))).resolve_left
          (by simpa using hnle)
        match k with
        | 0 =>
            simpa only [List.getD_cons_succ, List.getD_cons_zero] using htot
        | k' + 1 =>
            have hk' : k' < (e' :: es).length := Nat.lt_of_succ_lt_succ hk
            simpa only [List.getD_cons_succ] using
              minIdxBy_min h (e' :: es) k' hk'

theorem mem_eraseIdx_of_ne {l : List Entry} {i : Nat} {a : Entry}
    (ha : a ∈ l) (hne : a ≠ l.getD i ⟨0, 0⟩) : a ∈ l.eraseIdx i := by
  induction l generalizing i with
  | nil => cases ha
  | cons x xs ih =>
      cases i with
      | zero =>
          simp only [List.getD_cons_zero] at hne
          rcases List.mem_cons.mp ha with rfl | hmem
          · exact absurd rfl hne
          · simpa [List.eraseIdx]
      | succ i =>
          simp only [List.getD_cons_succ] at hne
          rcases List.mem_cons.mp ha with rfl | hmem
          · simp [List.eraseIdx]
          · simpa [List.eraseIdx] using .inr (ih hmem hne)

theorem settledHas_iff {settled : List Entry} {n : Nat} :
    settledHas settled n = true ↔ ∃ e ∈ settled, e.node = n := by
  simp [settledHas, List.any_eq_true]

theorem settledHas_append (settled : List Entry) (e : Entry) (n : Nat) :
    settledHas (settled ++ [e]) n =
      (settledHas settled n || decide (e.node = n)) := by
  simp [settledHas]

theorem LoopInv.cover {es : List GEdge} {s t : Nat} {st : SState}
    (inv : LoopInv es s t st) :
    ∀ (w : List GEdge) (ex : Entry), ex ∈ st.settled →
      ∀ z, settledHas st.settled z = false → IsWalk es ex.node z w →
        ∃ ent ∈ st.heap, ∃ wsuf, IsWalk es ent.node z wsuf ∧
          ent.gcost + walkCost wsuf ≤ ex.gcost + walkCost w := by
  intro w
  induction w with
  | nil =>
      intro ex hex z hz hw
      obtain rfl : ex.node = z := hw
      exact absurd (settledHas_iff.mpr ⟨ex, hex, rfl⟩) (by simp [hz])
  | cons e w ih =>
      intro ex hex z hz hw
      obtain ⟨he, h1, hw₂⟩ := hw
      by_cases hm : settledHas st.settled e.2.1 = true
      · -- the edge stays inside the settled region
        obtain ⟨em, hem, hemn⟩ := settledHas_iff.mp hm
        obtain ⟨wex, hwex, hcex⟩ := (inv.settled_shortest ex hex).1
        have hwm : IsWalk es s em.node (wex ++ [e]) := by
          rw [hemn]
          exact hwex.append (h1 ▸ IsWalk.single he)
        have hmin := (inv.settled_shortest em hem).2 (wex ++ [e]) hwm
        rw [walkCost_append, hcex] at hmin
        obtain ⟨ent, hent, wsuf, hwsuf, hbound⟩ :=
          ih em hem z hz (hemn ▸ hw₂)
        refine ⟨ent, hent, wsuf, hwsuf, ?_⟩
        rw [walkCost_cons]
        simp only [walkCost_cons, walkCost_nil, add_zero] at hmin
        linarith
      · -- the edge crosses the frontier
        have hmem : (e.2.1, e.2.2) ∈ outEdges es ex.node := by
          refine mem_outEdges.mpr ?_
          have : (ex.node, e.2.1, e.2.2) = e := by
            rw [← h1]
          exact this ▸ he
        have hent := inv.frontier ex hex (e.2.1, e.2.2) hmem
          (by simpa using hm)
        refine ⟨⟨e.2.1, ex.gcost + e.2.2⟩, hent, w, hw₂, ?_⟩
        rw [walkCost_cons]
        dsimp only
        linarith

theorem LoopInv.cover_start {es : List GEdge} {s t : Nat} {st : SState}
    (inv : LoopInv es s t st) (z : Nat)
    (hz : settledHas st.settled z = false) (w : List GEdge)
    (hw : IsWalk es s z w) :
    ∃ ent ∈ st.heap, ∃ wsuf, IsWalk es ent.node z wsuf ∧
      ent.gcost + walkCost wsuf ≤ walkCost w := by
  rcases inv.start with hs | hs
  · obtain ⟨e0, he0, he0n⟩ := settledHas_iff.mp hs
    have h0le : e0.gcost ≤ 0 := by
      have := (inv.settled_shortest e0 he0).2 [] he0n.symm
      simpa [walkCost_nil] using this
    obtain ⟨ent, hent, wsuf, hwsuf, hb⟩ :=
      inv.cover w e0 he0 z hz (by rw [he0n]; exact hw)
    exact ⟨ent, hent, wsuf, hwsuf, by linarith⟩
  · exact ⟨⟨s, 0⟩, hs, w, hw, by simp⟩

theorem LoopInv.settle_shortest {es : List GEdge} {h : Nat → ℚ} {s t : Nat}
    {st : SState} (inv : LoopInv es s t st) (hc : ConsistentH es h)
    (hne : st.heap ≠ [])
    (hunsettled :
      settledHas st.settled
        ((st.heap.getD (minIdxBy h st.heap) ⟨0, 0⟩).node) = false) :
    IsShortestDist es s ((st.heap.getD (minIdxBy h st.heap) ⟨0, 0⟩).node)
      ((st.heap.getD (minIdxBy h st.heap) ⟨0, 0⟩).gcost) := by
  set e := st.heap.getD (minIdxBy h st.heap) ⟨0, 0⟩ with hedef
  have hemem : e ∈ st.heap :=
    getD_mem_of_lt _ _ _ (minIdxBy_lt_length h st.heap hne)
  constructor
  · exact inv.heap_walks e hemem
  · intro w hw
    obtain ⟨ent, hent, wsuf, hwsuf, hb⟩ :=
      inv.cover_start e.node hunsettled w hw
    obtain ⟨k, hk, hkent⟩ := List.mem_iff_getElem.mp hent
    have hmin := minIdxBy_min h st.heap k hk
    rw [getD_of_lt _ _ _ hk, hkent, ← hedef] at hmin
    have h1 : e.gcost + h e.node ≤ ent.gcost + h ent.node := by
      simpa [entryKey] using keyLE_fst hmin
    have h2 : h ent.node ≤ walkCost wsuf + h e.node := hc.le_walk hwsuf
    linarith

theorem LoopInv.skip {es : List GEdge} {h : Nat → ℚ} {s t : Nat}
    {st : SState} (inv : LoopInv es s t st)
    (hset : settledHas st.settled
      ((st.heap.getD (minIdxBy h st.heap) ⟨0, 0⟩).node) = true) :
    LoopInv es s t ⟨st.settled, st.heap.eraseIdx (minIdxBy h st.heap)⟩ := by
  set i := minIdxBy h st.heap with hidef
  set e := st.heap.getD i ⟨0, 0⟩ with hedef
  refine ⟨inv.settled_nodup, inv.settled_shortest, inv.settled_supp,
    ?_, ?_, ?_, ?_, inv.t_unsettled⟩
  · intro a ha
    exact inv.heap_walks a (List.eraseIdx_subset _ _ ha)
  · intro a ha
    exact inv.heap_supp a (List.eraseIdx_subset _ _ ha)
  · by_cases hss : settledHas st.settled s = true
    · exact .inl hss
    · rcases inv.start with hs | hs
      · exact absurd hs hss
      · refine .inr (mem_eraseIdx_of_ne hs ?_)
        intro hcontra
        have he' : e = ⟨s, 0⟩ := by rw [hedef, ← hcontra]
        rw [he'] at hset
        exact hss (by simpa using hset)
  · intro a ha p hp hps
    have hent := inv.frontier a ha p hp hps
    refine mem_eraseIdx_of_ne hent ?_
    intro hcontra
    have he' : e = ⟨p.1, a.gcost + p.2⟩ := by rw [hedef, ← hcontra]
    rw [he'] at hset
    simp only at hset
    simp [hset] at hps

theorem LoopInv.settle {es : List GEdge} {h : Nat → ℚ} {s t : Nat}
    {st : SState} (inv : LoopInv es s t st) (hc : ConsistentH es h)
    (hne : st.heap ≠ [])
    (hset : settledHas st.settled
      ((st.heap.getD (minIdxBy h st.heap) ⟨0, 0⟩).node) = false)
    (het : (st.heap.getD (minIdxBy h st.heap) ⟨0, 0⟩).node ≠ t) :
    LoopInv es s t
      ⟨st.settled ++ [st.heap.getD (minIdxBy h st.heap) ⟨0, 0⟩],
       (st.heap.eraseIdx (minIdxBy h st.heap)) ++
         (outEdges es ((st.heap.getD (minIdxBy h st.heap) ⟨0, 0⟩).node)).map
           (fun p => ⟨p.1, (st.heap.getD (minIdxBy h st.heap)
             ⟨0, 0⟩).gcost + p.2⟩)⟩ := by
  set i := minIdxBy h st.heap with hidef
  set e := st.heap.getD i ⟨0, 0⟩ with hedef
  have hemem : e ∈ st.heap :=
    getD_mem_of_lt _ _ _ (minIdxBy_lt_length h st.heap hne)
  have heshort : IsShortestDist es s e.node e.gcost :=
    inv.settle_shortest hc hne (by rw [← hedef]; exact hset)
  constructor
  · -- nodup
    have hnotmem : ∀ x ∈ st.settled, ¬x.node = e.node := by
      intro x hx hxe
      exact absurd (settledHas_iff.mpr ⟨x, hx, hxe⟩) (by simp [hset])
    simpa [List.nodup_append] using ⟨inv.settled_nodup, hnotmem⟩
  · -- settled_shortest
    intro a ha
    rcases List.mem_append.mp ha with ha | ha
    · exact inv.settled_shortest a ha
    · obtain rfl : a = e := by simpa using ha
      exact heshort
  · -- settled_supp
    intro a ha
    rcases List.mem_append.mp ha with ha | ha
    · exact inv.settled_supp a ha
    · obtain rfl : a = e := by simpa using ha
      exact inv.heap_supp e hemem
  · -- heap_walks
    intro a ha
    rcases List.mem_append.mp ha with ha | ha
    · exact inv.heap_walks a (List.eraseIdx_subset _ _ ha)
    · obtain ⟨p, hp, rfl⟩ := List.mem_map.mp ha
      obtain ⟨w₀, hw₀, hc₀⟩ := inv.heap_walks e hemem
      refine ⟨w₀ ++ [(e.node, p.1, p.2)], ?_, ?_⟩
      · exact hw₀.append (IsWalk.single (mem_outEdges.mp hp))
      · rw [walkCost_append, hc₀, walkCost_cons, walkCost_nil]
        dsimp only
        ring
  · -- heap_supp
    intro a ha
    rcases List.mem_append.mp ha with ha | ha
    · exact inv.heap_supp a (List.eraseIdx_subset _ _ ha)
    · obtain ⟨p, hp, rfl⟩ := List.mem_map.mp ha
      refine .inr (List.mem_map.mpr ⟨(e.node, p.1, p.2), mem_outEdges.mp hp, rfl⟩)
  · -- start
    rcases inv.start with hs | hs
    · refine .inl ?_
      rw [settledHas_append, hs]
      simp
    · by_cases hcontra : (⟨s, 0⟩ : Entry) = e
      · refine .inl ?_
        rw [settledHas_append]
        have : e.node = s := by rw [← hcontra]
        simp [this]
      · refine .inr (List.mem_append.mpr (.inl
          (mem_eraseIdx_of_ne hs (by rw [← hedef]; exact hcontra))))
  · -- frontier
    intro a ha p hp hps
    rw [settledHas_append] at hps
    have hps₁ : settledHas st.settled p.1 = false := by
      rcases Bool.or_eq_false_iff.mp hps with ⟨h₁, -⟩
      exact h₁
    have hps₂ : p.1 ≠ e.node := by
      rcases Bool.or_eq_false_iff.mp hps with ⟨-, h₂⟩
      intro hcontra
      simp [hcontra] at h₂
    rcases List.mem_append.mp ha with ha | ha
    · have hent := inv.frontier a ha p hp hps₁
      refine List.mem_append.mpr (.inl (mem_eraseIdx_of_ne hent ?_))
      intro hcontra
      have he' : e = ⟨p.1, a.gcost + p.2⟩ := by rw [hedef, ← hcontra]
      exact hps₂ (by rw [he'])
    · obtain rfl : a = e := by simpa using ha
      exact List.mem_append.mpr (.inr (List.mem_map.mpr ⟨p, hp, rfl⟩))
  · -- goal still unsettled
    rw [settledHas_append, inv.t_unsettled]
    simp [het]

theorem LoopInv.settled_length_le {es : List GEdge} {s t : Nat}
    {st : SState} (inv : LoopInv es s t st) :
    st.settled.length ≤ es.length + 1 := by
  have hsub : (st.settled.map Entry.node) ⊆
      s :: es.map (fun ed => ed.2.1) := by
    intro n hn
    obtain ⟨a, ha, rfl⟩ := List.mem_map.mp hn
    rcases inv.settled_supp a ha with h | h
    · exact h ▸ List.mem_cons_self _ _
    · exact List.mem_cons_of_mem _ h
  have := (inv.settled_nodup.subperm hsub).length_le
  simpa using this

theorem loopMeasure_skip_lt (es : List GEdge) (settled heap : List Entry)
    (i : Nat) (hi : i < heap.length) :
    loopMeasure es ⟨settled, heap.eraseIdx i⟩ <
      loopMeasure es ⟨settled, heap⟩ := by
  unfold loopMeasure
  dsimp only
  rw [List.length_eraseIdx_of_lt hi]
  omega

theorem loopMeasure_settle_lt (es : List GEdge) (settled heap : List Entry)
    (i : Nat) (hi : i < heap.length) (e : Entry) (pushes : List Entry)
    (hpush : pushes.length ≤ es.length)
    (hsettled : settled.length ≤ es.length) :
    loopMeasure es ⟨settled ++ [e], heap.eraseIdx i ++ pushes⟩ <
      loopMeasure es ⟨settled, heap⟩ := by
  unfold loopMeasure
  dsimp only
  rw [List.length_append, List.length_append,
    List.length_eraseIdx_of_lt hi]
  have h1 : es.length + 1 - settled.length =
      (es.length - settled.length) + 1 := by omega
  have h2 : ∀ k : Nat, (k + 1) * (es.length + 1) =
      k * (es.length + 1) + (es.length + 1) := fun k => by ring
  rw [List.length_singleton, h1, h2]
  have h3 : es.length + 1 - (settled.length + 1) =
      es.length - settled.length := by omega
  rw [h3]
  omega

theorem searchLoop_spec (es : List GEdge) (h : Nat → ℚ) (s t : Nat)
    (hc : ConsistentH es h) :
    ∀ (fuel : Nat) (st : SState), LoopInv es s t st →
      loopMeasure es st < fuel →
      (∀ d, (searchLoop es h t fuel st).1 = some d →
         IsShortestDist es s t d) ∧
      ((searchLoop es h t fuel st).1 = none → ¬ReachableG es s t) := by
  intro fuel
  induction fuel with
  | zero =>
      intro st inv hm
      exact absurd hm (Nat.not_lt_zero _)
  | succ fuel ih =>
      intro st inv hm
      obtain ⟨settled, heap⟩ := st
      cases hheap : heap with
      | nil =>
          subst hheap
          constructor
          · intro d hd
            simp [searchLoop] at hd
          · intro _ hreach
            obtain ⟨w, hw⟩ := hreach
            obtain ⟨ent, hent, -⟩ :=
              inv.cover_start t inv.t_unsettled w hw
            exact absurd hent (List.not_mem_nil _)
      | cons e₀ heap' =>
          subst hheap
          have hne : (e₀ :: heap' : List Entry) ≠ [] := by simp
          have hilt : minIdxBy h (e₀ :: heap') < (e₀ :: heap').length :=
            minIdxBy_lt_length h _ hne
          set i := minIdxBy h (e₀ :: heap') with hidef
          set e := (e₀ :: heap').getD i ⟨0, 0⟩ with hedef
          set rest := (e₀ :: heap').eraseIdx i with hrdef
          have hstep : searchLoop es h t (fuel + 1) ⟨settled, e₀ :: heap'⟩ =
              if settledHas settled e.node then
                searchLoop es h t fuel ⟨settled, rest⟩
              else if e.node = t then (some e.gcost, ⟨settled ++ [e], rest⟩)
              else searchLoop es h t fuel
                ⟨settled ++ [e],
                 rest ++ (outEdges es e.node).map
                   (fun p => ⟨p.1, e.gcost + p.2⟩)⟩ := rfl
          rw [hstep]
          split
          · -- stale entry: its node is already settled
            rename_i hset
            have hinv' : LoopInv es s t ⟨settled, rest⟩ :=
              inv.skip (h := h) hset
            have hm' : loopMeasure es ⟨settled, rest⟩ < fuel := by
              have := loopMeasure_skip_lt es settled (e₀ :: heap') i hilt
              rw [← hrdef] at this
              omega
            exact ih _ hinv' hm'
          · rename_i hset
            have hset' : settledHas settled e.node = false :=
              Bool.not_eq_true _ ▸ eq_false_of_ne_true hset
            split
            · -- the goal is popped: the returned cost is optimal
              rename_i het
              constructor
              · intro d hd
                obtain rfl : e.gcost = d := by simpa using hd
                have hshort := inv.settle_shortest (h := h) hc hne hset'
                rw [het] at hshort
                exact hshort
              · intro hd
                simp at hd
            · -- settle a non-goal node and relax its edges
              rename_i het
              have hinv' := inv.settle (h := h) hc hne hset' het
              have hlen : settled.length ≤ es.length := by
                have := hinv'.settled_length_le
                simpa using this
              have hpush :
                  ((outEdges es e.node).map
                    (fun p => (⟨p.1, e.gcost + p.2⟩ : Entry))).length ≤
                    es.length := by
                rw [List.length_map]
                exact List.length_filterMap_le _ _
              have hm' : loopMeasure es
                  ⟨settled ++ [e],
                   rest ++ (outEdges es e.node).map
                     (fun p => ⟨p.1, e.gcost + p.2⟩)⟩ < fuel := by
                have := loopMeasure_settle_lt es settled (e₀ :: heap') i hilt
                  e ((outEdges es e.node).map
                    (fun p => ⟨p.1, e.gcost + p.2⟩)) hpush hlen
                rw [← hrdef] at this
                omega
              exact ih _ hinv' hm'

theorem searchRun_spec (es : List GEdge) (h : Nat → ℚ) (s t : Nat)
    (fuel : Nat) (hc : ConsistentH es h)
    (hfuel : searchFuel es ≤ fuel) :
    (∀ d, (searchRun es h s t fuel).1 = some d → IsShortestDist es s t d) ∧
    ((searchRun es h s t fuel).1 = none → ¬ReachableG es s t) := by
  have hinv : LoopInv es s t ⟨[], [⟨s, 0⟩]⟩ := by
    constructor
    · simp
    · intro a ha
      cases ha
    · intro a ha
      cases ha
    · intro a ha
      obtain rfl : a = ⟨s, 0⟩ := by simpa using ha
      exact ⟨[], rfl, rfl⟩
    · intro a ha
      obtain rfl : a = ⟨s, 0⟩ := by simpa using ha
      exact .inl rfl
    · exact .inr (by simp)
    · intro a ha
      cases ha
    · rfl
  have hm : loopMeasure es ⟨[], [⟨s, 0⟩]⟩ < fuel := by
    have hq : (es.length + 1) * (es.length + 1) + 1 <
        (es.length + 2) * (es.length + 2) := by nlinarith
    unfold loopMeasure searchFuel at *
    simp only [List.length_singleton, List.length_nil, Nat.sub_zero] at *
    omega
  exact searchLoop_spec es h s t hc fuel _ hinv hm

theorem consistent_admissible {es : List GEdge} {h : Nat → ℚ} {t : Nat}
    (hc : ConsistentH es h) (ht : h t = 0) : AdmissibleH es h t := by
  intro x w hw
  have := hc.le_walk hw
  rw [ht] at this
  simpa using this

/-- C6, amended: on every weighted graph variant with nonnegative edge
weights (spec §4.2's cost floor), Dijkstra and A* with a *consistent*
heuristic return paths of equal total cost — both return the shortest-path
distance, and both report "no route" on exactly the same inputs.  Mere
admissibility of the heuristic is not enough for cost equality, and even
with the consistent heuristic A* may settle cost-tied nodes that Dijkstra
never visits, so no bound of A*'s visit count by Dijkstra's holds (both
refuted concretely by the counterexample). -/
theorem C6_amended (es : List GEdge) (h : Nat → ℚ) (s t : Nat) (fuel : Nat)
    (hn : NonnegWeights es) (hc : ConsistentH es h)
    (hfuel : searchFuel es ≤ fuel) :
    runCost (astarRun es h s t fuel) = runCost (dijkstraRun es s t fuel) := by
  have hc0 : ConsistentH es (fun _ => 0) := by
    intro e he
    simpa using hn e he
  have ha := searchRun_spec es h s t fuel hc hfuel
  have hd := searchRun_spec es (fun _ => 0) s t fuel hc0 hfuel
  show (searchRun es h s t fuel).1 = (searchRun es (fun _ => 0) s t fuel).1
  cases hra : (searchRun es h s t fuel).1 with
  | none =>
      cases hrd : (searchRun es (fun _ => 0) s t fuel).1 with
      | none => rfl
      | some d =>
          obtain ⟨⟨w, hw, -⟩, -⟩ := hd.1 d hrd
          exact absurd ⟨w, hw⟩ (ha.2 hra)
  | some d =>
      cases hrd : (searchRun es (fun _ => 0) s t fuel).1 with
      | none =>
          obtain ⟨⟨w, hw, -⟩, -⟩ := ha.1 d hra
          exact absurd ⟨w, hw⟩ (hd.2 hrd)
      | some d' =>
          rw [(ha.1 d hra).unique (hd.1 d' hrd)]

theorem searchLoop_cons (es : List GEdge) (h : Nat → ℚ) (t fuel : Nat)
    (settled : List Entry) (e₀ : Entry) (heap' : List Entry) :
    searchLoop es h t (fuel + 1) ⟨settled, e₀ :: heap'⟩ =
      (let i := minIdxBy h (e₀ :: heap');
       let e := (e₀ :: heap').getD i ⟨0, 0⟩;
       let rest := (e₀ :: heap').eraseIdx i;
       if settledHas settled e.node then
         searchLoop es h t fuel ⟨settled, rest⟩
       else if e.node = t then (some e.gcost, ⟨settled ++ [e], rest⟩)
       else searchLoop es h t fuel
         ⟨settled ++ [e],
          rest ++ (outEdges es e.node).map
            (fun p => ⟨p.1, e.gcost + p.2⟩)⟩) := rfl

set_option maxHeartbeats 2000000 in
theorem exGraphB_dijkstra_eval :
    dijkstraRun exGraphB 0 1 (searchFuel exGraphB) =
      (some 7, ⟨[⟨0, 0⟩, ⟨3, 5⟩, ⟨1, 7⟩], [⟨2, 7⟩]⟩) := by
  show searchLoop exGraphB (fun _ => 0) 1 (24 + 1) ⟨[], [⟨0, 0⟩]⟩ = _
  rw [searchLoop_cons]
  norm_num [minIdxBy, keyLE, entryKey, outEdges,
      settledHas, exGraphA, exGraphB, exHeurA, exHeurB,
      List.getD, List.eraseIdx, List.filterMap_cons, List.map_cons, List.map_nil]
  rw [show (24 : ℕ) = 23 + 1 from rfl, searchLoop_cons]
  norm_num [minIdxBy, keyLE, entryKey, outEdges,
      settledHas, exGraphA, exGraphB, exHeurA, exHeurB,
      List.getD, List.eraseIdx, List.filterMap_cons, List.map_cons, List.map_nil]
  rw [show (23 : ℕ) = 22 + 1 from rfl, searchLoop_cons]
  norm_num [minIdxBy, keyLE, entryKey, outEdges,
      settledHas, exGraphA, exGraphB, exHeurA, exHeurB,
      List.getD, List.eraseIdx, List.filterMap_cons, List.map_cons, List.map_nil]

set_option maxHeartbeats 2000000 in
theorem exGraphB_astar_eval :
    astarRun exGraphB exHeurB 0 1 (searchFuel exGraphB) =
      (some 7, ⟨[⟨0, 0⟩, ⟨2, 7⟩, ⟨3, 5⟩, ⟨1, 7⟩], []⟩) := by
  show searchLoop exGraphB exHeurB 1 (24 + 1) ⟨[], [⟨0, 0⟩]⟩ = _
  rw [searchLoop_cons]
  norm_num [minIdxBy, keyLE, entryKey, outEdges,
      settledHas, exGraphA, exGraphB, exHeurA, exHeurB,
      List.getD, List.eraseIdx, List.filterMap_cons, List.map_cons, List.map_nil]
  rw [show (24 : ℕ) = 23 + 1 from rfl, searchLoop_cons]
  norm_num [minIdxBy, keyLE, entryKey, outEdges,
      settledHas, exGraphA, exGraphB, exHeurA, exHeurB,
      List.getD, List.eraseIdx, List.filterMap_cons, List.map_cons, List.map_nil]
  rw [show (23 : ℕ) = 22 + 1 from rfl, searchLoop_cons]
  norm_num [minIdxBy, keyLE, entryKey, outEdges,
      settledHas, exGraphA, exGraphB, exHeurA, exHeurB,
      List.getD, List.eraseIdx, List.filterMap_cons, List.map_cons, List.map_nil]
  rw [show (22 : ℕ) = 21 + 1 from rfl, searchLoop_cons]
  norm_num [minIdxBy, keyLE, entryKey, outEdges,
      settledHas, exGraphA, exGraphB, exHeurA, exHeurB,
      List.getD, List.eraseIdx, List.filterMap_cons, List.map_cons, List.map_nil]

set_option maxHeartbeats 4000000 in
theorem exGraphA_astar_eval :
    astarRun exGraphA exHeurA 0 4 (searchFuel exGraphA) =
      (some 8, ⟨[⟨0, 0⟩, ⟨1, 4⟩, ⟨2, 2⟩, ⟨3, 15/2⟩, ⟨4, 8⟩], []⟩) := by
  show searchLoop exGraphA exHeurA 4 (48 + 1) ⟨[], [⟨0, 0⟩]⟩ = _
  rw [searchLoop_cons]
  norm_num [minIdxBy, keyLE, entryKey, outEdges,
      settledHas, exGraphA, exGraphB, exHeurA, exHeurB,
      List.getD, List.eraseIdx, List.filterMap_cons, List.map_cons, List.map_nil]
  rw [show (48 : ℕ) = 47 + 1 from rfl, searchLoop_cons]
  norm_num [minIdxBy, keyLE, entryKey, outEdges,
      settledHas, exGraphA, exGraphB, exHeurA, exHeurB,
      List.getD, List.eraseIdx, List.filterMap_cons, List.map_cons, List.map_nil]
  rw [show (47 : ℕ) = 46 + 1 from rfl, searchLoop_cons]
  norm_num [minIdxBy, keyLE, entryKey, outEdges,
      settledHas, exGraphA, exGraphB, exHeurA, exHeurB,
      List.getD, List.eraseIdx, List.filterMap_cons, List.map_cons, List.map_nil]
  rw [show (46 : ℕ) = 45 + 1 from rfl, searchLoop_cons]
  norm_num [minIdxBy, keyLE, entryKey, outEdges,
      settledHas, exGraphA, exGraphB, exHeurA, exHeurB,
      List.getD, List.eraseIdx, List.filterMap_cons, List.map_cons, List.map_nil]
  rw [show (45 : ℕ) = 44 + 1 from rfl, searchLoop_cons]
  norm_num [minIdxBy, keyLE, entryKey, outEdges,
      settledHas, exGraphA, exGraphB, exHeurA, exHeurB,
      List.getD, List.eraseIdx, List.filterMap_cons, List.map_cons, List.map_nil]
  rw [show (44 : ℕ) = 43 + 1 from rfl, searchLoop_cons]
  norm_num [minIdxBy, keyLE, entryKey, outEdges,
      settledHas, exGraphA, exGraphB, exHeurA, exHeurB,
      List.getD, List.eraseIdx, List.filterMap_cons, List.map_cons, List.map_nil]

set_option maxHeartbeats 4000000 in
theorem exGraphA_dijkstra_eval :
    dijkstraRun exGraphA 0 4 (searchFuel exGraphA) =
      (some 7, ⟨[⟨0, 0⟩, ⟨2, 2⟩, ⟨1, 3⟩, ⟨4, 7⟩], [⟨3, 15/2⟩]⟩) := by
  show searchLoop exGraphA (fun _ => 0) 4 (48 + 1) ⟨[], [⟨0, 0⟩]⟩ = _
  rw [searchLoop_cons]
  norm_num [minIdxBy, keyLE, entryKey, outEdges,
      settledHas, exGraphA, exGraphB, exHeurA, exHeurB,
      List.getD, List.eraseIdx, List.filterMap_cons, List.map_cons, List.map_nil]
  rw [show (48 : ℕ) = 47 + 1 from rfl, searchLoop_cons]
  norm_num [minIdxBy, keyLE, entryKey, outEdges,
      settledHas, exGraphA, exGraphB, exHeurA, exHeurB,
      List.getD, List.eraseIdx, List.filterMap_cons, List.map_cons, List.map_nil]
  rw [show (47 : ℕ) = 46 + 1 from rfl, searchLoop_cons]
  norm_num [minIdxBy, keyLE, entryKey, outEdges,
      settledHas, exGraphA, exGraphB, exHeurA, exHeurB,
      List.getD, List.eraseIdx, List.filterMap_cons, List.map_cons, List.map_nil]
  rw [show (46 : ℕ) = 45 + 1 from rfl, searchLoop_cons]
  norm_num [minIdxBy, keyLE, entryKey, outEdges,
      settledHas, exGraphA, exGraphB, exHeurA, exHeurB,
      List.getD, List.eraseIdx, List.filterMap_cons, List.map_cons, List.map_nil]
  rw [show (45 : ℕ) = 44 + 1 from rfl, searchLoop_cons]
  norm_num [minIdxBy, keyLE, entryKey, outEdges,
      settledHas, exGraphA, exGraphB, exHeurA, exHeurB,
      List.getD, List.eraseIdx, List.filterMap_cons, List.map_cons, List.map_nil]

theorem exGraphA_nonneg : NonnegWeights exGraphA := by
  intro e he
  fin_cases he <;> norm_num

theorem exGraphB_nonneg : NonnegWeights exGraphB := by
  intro e he
  fin_cases he <;> norm_num

theorem exHeurB_consistent : ConsistentH exGraphB exHeurB := by
  intro e he
  fin_cases he <;> norm_num [exHeurB]

theorem exGraphA_cost_from_one :
    ∀ w : List GEdge, IsWalk exGraphA 1 4 w → 4 ≤ walkCost w := by
  intro w hw
  cases w with
  | nil => exact absurd hw (by norm_num [IsWalk])
  | cons e w' =>
      obtain ⟨he, h1, hw'⟩ := hw
      have hnn := IsWalk.nonneg_cost exGraphA_nonneg hw'
      fin_cases he <;> simp_all [walkCost_cons]

theorem exGraphA_cost_from_two :
    ∀ w : List GEdge, IsWalk exGraphA 2 4 w → 5 ≤ walkCost w := by
  intro w hw
  cases w with
  | nil => exact absurd hw (by norm_num [IsWalk])
  | cons e w' =>
      obtain ⟨he, h1, hw'⟩ := hw
      fin_cases he
      · simp at h1
      · simp at h1
      · have h4 := exGraphA_cost_from_one w' hw'
        rw [walkCost_cons]
        show (5 : ℚ) ≤ 1 + walkCost w'
        linarith
      · simp at h1
      · simp at h1

theorem exHeurA_admissible : AdmissibleH exGraphA exHeurA 4 := by
  intro x w hw
  by_cases hx : x = 2
  · subst hx
    have := exGraphA_cost_from_two w hw
    simpa [exHeurA] using this
  · have := IsWalk.nonneg_cost exGraphA_nonneg hw
    simpa [exHeurA, hx] using this

/-- C6, counterexample: the claim fails on both conjuncts.  On `exGraphA`
with the admissible (but inconsistent) heuristic `exHeurA`, A* returns
cost 8 while Dijkstra returns the optimum 7, so the paths do not have
equal total cost.  On `exGraphB` with the consistent (hence admissible)
heuristic `exHeurB`, both return cost 7 but A* settles 4 nodes while
Dijkstra settles only 3 — A* visits strictly more nodes. -/
theorem C6_counterexample :
    (AdmissibleH exGraphA exHeurA 4 ∧
      runCost (astarRun exGraphA exHeurA 0 4 (searchFuel exGraphA)) = some 8 ∧
      runCost (dijkstraRun exGraphA 0 4 (searchFuel exGraphA)) = some 7) ∧
    (ConsistentH exGraphB exHeurB ∧ exHeurB 1 = 0 ∧ NonnegWeights exGraphB ∧
      AdmissibleH exGraphB exHeurB 1 ∧
      runCost (astarRun exGraphB exHeurB 0 1 (searchFuel exGraphB)) =
        runCost (dijkstraRun exGraphB 0 1 (searchFuel exGraphB)) ∧
      runVisits (dijkstraRun exGraphB 0 1 (searchFuel exGraphB)) <
        runVisits (astarRun exGraphB exHeurB 0 1 (searchFuel exGraphB))) := by
  refine ⟨⟨exHeurA_admissible, ?_, ?_⟩,
    exHeurB_consistent, rfl, exGraphB_nonneg,
    consistent_admissible exHeurB_consistent rfl, ?_, ?_⟩
  · rw [exGraphA_astar_eval]
    rfl
  · rw [exGraphA_dijkstra_eval]
    rfl
  · rw [exGraphB_astar_eval, exGraphB_dijkstra_eval]
    rfl
  · rw [exGraphB_astar_eval, exGraphB_dijkstra_eval]
    norm_num [runVisits]

/-- C6, witness for the amended theorem: on `exGraphB` with the consistent
heuristic `exHeurB`, A* and Dijkstra return the same cost. -/
theorem C6_amended_witness :
    runCost (astarRun exGraphB exHeurB 0 1 (searchFuel exGraphB)) =
      runCost (dijkstraRun exGraphB 0 1 (searchFuel exGraphB)) :=
  C6_amended exGraphB exHeurB 0 1 (searchFuel exGraphB) exGraphB_nonneg
    exHeurB_consistent (le_refl _)

end Pedal
